import Mathlib

/-!
Verification of the region-boundary text-buffer controller of
`accesspanel/accesspanel.py` (class `AccessPanel`).

The surface (a wx `TextCtrl`) is modelled as a list of characters plus an
insertion point; the panel adds the `editing_pos` boundary field.  Every
definition below is a direct transcription of the corresponding Python
method; positions are natural numbers, except inside `IsEditing` where the
Python `pos -= 1` can reach `-1`, so that computation is done in `Int`.
-/

/-- The text surface: wx.TextCtrl as used by the panel (content plus
insertion point). -/
structure TextCtrl where
  text : List Char
  insertion : Nat
deriving DecidableEq, Repr

def TextCtrl.GetLastPosition (t : TextCtrl) : Nat := t.text.length

def TextCtrl.GetInsertionPoint (t : TextCtrl) : Nat := t.insertion

def TextCtrl.SetInsertionPoint (t : TextCtrl) (p : Nat) : TextCtrl :=
  { t with insertion := p }

/-- `GetRange(a, b)` returns the characters at positions `[a, b)`. -/
def TextCtrl.GetRange (t : TextCtrl) (a b : Nat) : List Char :=
  (t.text.take b).drop a

/-- `SetValue` replaces the whole content (insertion point resets to 0). -/
def TextCtrl.SetValue (_t : TextCtrl) (s : List Char) : TextCtrl :=
  { text := s, insertion := 0 }

/-- `AppendText` appends at the end and moves the insertion point there. -/
def TextCtrl.AppendText (t : TextCtrl) (s : List Char) : TextCtrl :=
  { text := t.text ++ s, insertion := t.text.length + s.length }

/-- `Remove(a, b)` deletes the characters at positions `[a, b)`; an
insertion point inside the removed range collapses to its start, one after
it shifts left. -/
def TextCtrl.Remove (t : TextCtrl) (a b : Nat) : TextCtrl :=
  { text := t.text.take a ++ t.text.drop b,
    insertion :=
      if t.insertion ≤ a then t.insertion
      else if t.insertion ≤ b then a
      else t.insertion - (b - a) }

/-- Characters at which Python `str.splitlines` breaks a line. -/
def isLineBreak (c : Char) : Bool :=
  c.toNat = 10 || c.toNat = 13 || c.toNat = 11 || c.toNat = 12 ||
  c.toNat = 28 || c.toNat = 29 || c.toNat = 30 || c.toNat = 133 ||
  c.toNat = 8232 || c.toNat = 8233

/-- Worker for `splitlines`: `acc` holds the current line reversed. -/
def splitlinesAux : List Char → List Char → List (List Char)
  | [], acc => if acc.isEmpty then [] else [acc.reverse]
  | '\r' :: '\n' :: rest, acc => acc.reverse :: splitlinesAux rest []
  | c :: rest, acc =>
    if isLineBreak c then acc.reverse :: splitlinesAux rest []
    else splitlinesAux rest (c :: acc)

/-- Python `message.splitlines()`: split at line breaks (with `"\r\n"`
counting as a single break), the terminators not kept, a trailing
terminator producing no extra empty line. -/
def splitlines (s : List Char) : List (List Char) := splitlinesAux s []

/-- Python `"\r\n".join(lines)`. -/
def joinCRLF : List (List Char) → List Char
  | [] => []
  | [l] => l
  | l :: rest => l ++ '\r' :: '\n' :: joinCRLF rest

/-- The canonical line terminator used by the panel. -/
def CRLF : List Char := ['\r', '\n']

/-- Lines 178-181 of `OnMessage`:
`message = "\r\n".join(message.splitlines())` followed by
`if not message.endswith("\r\n"): message += "\r\n"`. -/
def normalizeMessage (m : List Char) : List Char :=
  let j := joinCRLF (splitlines m)
  if CRLF <:+ j then j else j ++ CRLF

/-- The panel: the output text control plus the `editing_pos` boundary. -/
structure AccessPanel where
  output : TextCtrl
  editing_pos : Nat
deriving DecidableEq, Repr

/-- The `input` property: `GetRange(editing_pos, GetLastPosition())`. -/
def AccessPanel.input (p : AccessPanel) : List Char :=
  p.output.GetRange p.editing_pos p.output.GetLastPosition

/-- `IsEditing(beyond_one)`: reads the insertion point, subtracts one when
`beyond_one` (Python int arithmetic, so the value may become `-1`), and
returns `pos < editing_pos`. -/
def AccessPanel.IsEditing (p : AccessPanel) (beyond_one : Bool) : Bool :=
  let pos : Int := (p.output.GetInsertionPoint : Int)
  let pos := if beyond_one then pos - 1 else pos
  decide (pos < (p.editing_pos : Int))

/-- `ClearInput`: remove `[editing_pos, GetLastPosition())`, then set
`editing_pos` to the new last position. -/
def AccessPanel.ClearInput (p : AccessPanel) : AccessPanel :=
  let o := p.output.Remove p.editing_pos p.output.GetLastPosition
  { output := o, editing_pos := o.GetLastPosition }

/-- `OnMessage`: normalize the message, capture cursor / history / input,
rewrite the surface as history + message, shift the cursor if it was at or
past the boundary, move the boundary to the end, re-append the input and
restore the cursor. -/
def AccessPanel.OnMessage (p : AccessPanel) (value : List Char) : AccessPanel :=
  let message := normalizeMessage value
  let pos := p.output.GetInsertionPoint
  let history := p.output.GetRange 0 p.editing_pos
  let inputText := p.input
  let o := (p.output.SetValue history).AppendText message
  let pos := if pos ≥ p.editing_pos then pos + message.length else pos
  let editing_pos := o.GetLastPosition
  let o := (o.AppendText inputText).SetInsertionPoint pos
  { output := o, editing_pos := editing_pos }

/-- wx key code for the Return key. -/
def WXK_RETURN : Nat := 13

/-- wx key code for the Backspace key. -/
def WXK_BACK : Nat := 8

/-- A key-down event: `GetUnicodeKey()`, `GetKeyCode()`, `GetModifiers()`. -/
structure KeyEvent where
  unicodeKey : Nat
  keyCode : Nat
  modifiers : Nat
deriving DecidableEq, Repr

/-- `OnKeyDown`.  Returns the new panel, the final `skip` flag (`true`
means `e.Skip()` is called, i.e. the keystroke is propagated to the
widget), and the list of `OnInput` calls made, each recorded with the
panel state at the moment of the call.  The Python local `input` is
`inputText` here; the re-read of `pos` on line 228 is dead and omitted. -/
def AccessPanel.OnKeyDown (p : AccessPanel) (e : KeyEvent) :
    AccessPanel × Bool × List (AccessPanel × List Char) :=
  let pos := p.output.GetInsertionPoint
  let inputText := p.input
  let modifiers := e.modifiers
  let key := if e.unicodeKey ≠ 0 then e.unicodeKey else e.keyCode
  -- "If the user has pressed RETURN"
  let p1 := if key = WXK_RETURN ∧ modifiers = 0 then p.ClearInput else p
  let calls := if key = WXK_RETURN ∧ modifiers = 0 then
      [(p.ClearInput, inputText)] else []
  let skip := if key = WXK_RETURN ∧ modifiers = 0 then false else true
  -- "If we press a letter before the input area, move it back there"
  let p2 := if pos < p1.editing_pos ∧ modifiers = 0 ∧ 0 < key ∧ key < 256 then
      { p1 with
        output := p1.output.SetInsertionPoint p1.output.GetLastPosition }
    else p1
  -- "If we press backspace out of the input area"
  let skip := if key = WXK_BACK ∧ modifiers = 0 ∧ p2.IsEditing true then
      false else skip
  (p2, skip, calls)

/-- The freshly constructed panel: empty surface, `editing_pos = 0`. -/
def initPanel : AccessPanel :=
  { output := { text := [], insertion := 0 }, editing_pos := 0 }

/-- The boundary invariant of the spec: `0 ≤ boundary ≤ length` (the lower
bound is implicit in `Nat`). -/
def boundaryInv (p : AccessPanel) : Prop :=
  p.editing_pos ≤ p.output.text.length

instance (p : AccessPanel) : Decidable (boundaryInv p) := by
  unfold boundaryInv; infer_instance

/-- Modelled from the spec: "the normalized message ends with exactly one
line-ending".  A text ends with exactly one `"\r\n"` terminator when it has
`"\r\n"` as a suffix but not `"\r\n\r\n"`. -/
def specEndsWithExactlyOneTerminator (s : List Char) : Prop :=
  CRLF <:+ s ∧ ¬ (CRLF ++ CRLF <:+ s)

instance (s : List Char) : Decidable (specEndsWithExactlyOneTerminator s) := by
  unfold specEndsWithExactlyOneTerminator; infer_instance

example : normalizeMessage "hello".toList = "hello".toList ++ CRLF := by decide

example : normalizeMessage [] = CRLF := by decide

example : splitlines "a\n\n\n".toList = [['a'], [], []] := by decide

example : normalizeMessage "a\n\n\n".toList = ['a', '\r', '\n', '\r', '\n'] := by
  decide

/-! ### Characterization lemmas -/

lemma AccessPanel.input_eq (p : AccessPanel) :
    p.input = p.output.text.drop p.editing_pos := by
  simp [AccessPanel.input, TextCtrl.GetRange, TextCtrl.GetLastPosition,
    List.take_length]

/-- `OnMessage` written out as a single record: the new surface text is
history + normalized message + old input, the boundary sits right after the
message, and the cursor was shifted exactly when it was at or past the old
boundary. -/
lemma AccessPanel.OnMessage_eq (p : AccessPanel) (m : List Char) :
    p.OnMessage m =
      { output :=
          { text := p.output.text.take p.editing_pos ++ normalizeMessage m
              ++ p.output.text.drop p.editing_pos,
            insertion :=
              if p.editing_pos ≤ p.output.insertion then
                p.output.insertion + (normalizeMessage m).length
              else p.output.insertion },
        editing_pos :=
          (p.output.text.take p.editing_pos).length
            + (normalizeMessage m).length } := by
  simp [AccessPanel.OnMessage, AccessPanel.input_eq, AccessPanel.input,
    TextCtrl.GetRange, TextCtrl.GetInsertionPoint, TextCtrl.GetLastPosition,
    TextCtrl.SetValue, TextCtrl.AppendText, TextCtrl.SetInsertionPoint,
    ge_iff_le, List.take_length]

lemma AccessPanel.ClearInput_text (p : AccessPanel) :
    (p.ClearInput).output.text = p.output.text.take p.editing_pos := by
  simp [AccessPanel.ClearInput, TextCtrl.Remove, TextCtrl.GetLastPosition,
    List.drop_length]

lemma AccessPanel.ClearInput_editing_pos (p : AccessPanel) :
    (p.ClearInput).editing_pos = (p.output.text.take p.editing_pos).length := by
  simp [AccessPanel.ClearInput, TextCtrl.Remove, TextCtrl.GetLastPosition,
    List.drop_length]

lemma AccessPanel.ClearInput_input (p : AccessPanel) :
    (p.ClearInput).input = [] := by
  rw [AccessPanel.input_eq, AccessPanel.ClearInput_text,
    AccessPanel.ClearInput_editing_pos, List.drop_length]

/-- The normalized message always has the terminator as a suffix. -/
lemma CRLF_suffix_normalizeMessage (m : List Char) :
    CRLF <:+ normalizeMessage m := by
  unfold normalizeMessage
  by_cases h : CRLF <:+ joinCRLF (splitlines m)
  · simp [h]
  · simp only [h, if_false]
    exact List.suffix_append _ _

lemma AccessPanel.OnMessage_text (p : AccessPanel) (m : List Char) :
    (p.OnMessage m).output.text
      = p.output.text.take p.editing_pos ++ normalizeMessage m
        ++ p.output.text.drop p.editing_pos := by
  rw [AccessPanel.OnMessage_eq]

lemma AccessPanel.OnMessage_editing_pos (p : AccessPanel) (m : List Char) :
    (p.OnMessage m).editing_pos
      = (p.output.text.take p.editing_pos).length
        + (normalizeMessage m).length := by
  rw [AccessPanel.OnMessage_eq]

lemma AccessPanel.OnMessage_insertion (p : AccessPanel) (m : List Char) :
    (p.OnMessage m).output.insertion
      = if p.editing_pos ≤ p.output.insertion then
          p.output.insertion + (normalizeMessage m).length
        else p.output.insertion := by
  rw [AccessPanel.OnMessage_eq]

/-! ### Claims -/

/-- Claim C1: after `appendOutput` (`OnMessage`), the editable region text
(`currentInput()`, i.e. `GetRange(editing_pos, GetLastPosition())`) equals
byte-for-byte the pending input captured before the call, and the boundary
equals the new surface length minus the length of that pending input. -/
theorem C1_append_preserves_input (p : AccessPanel) (m : List Char) :
    (p.OnMessage m).input = p.input ∧
    (p.OnMessage m).editing_pos
      = (p.OnMessage m).output.text.length - p.input.length := by
  constructor
  · rw [AccessPanel.input_eq, AccessPanel.input_eq, AccessPanel.OnMessage_text,
      AccessPanel.OnMessage_editing_pos, ← List.length_append, List.drop_left]
  · rw [AccessPanel.input_eq, AccessPanel.OnMessage_editing_pos,
      AccessPanel.OnMessage_text]
    simp only [List.length_append]
    omega

/-- Claim C2: if the saved cursor was at or past the old boundary at
relative offset `d`, the cursor after `OnMessage` sits at the new boundary
plus `d`; if it was strictly before the old boundary, its absolute offset
is unchanged. -/
theorem C2_cursor_relative_position (p : AccessPanel) (m : List Char)
    (hb : boundaryInv p) :
    (p.editing_pos ≤ p.output.insertion →
      (p.OnMessage m).output.insertion
        = (p.OnMessage m).editing_pos
          + (p.output.insertion - p.editing_pos)) ∧
    (p.output.insertion < p.editing_pos →
      (p.OnMessage m).output.insertion = p.output.insertion) := by
  have hlen : (p.output.text.take p.editing_pos).length = p.editing_pos := by
    rw [List.length_take]
    exact Nat.min_eq_left hb
  constructor
  · intro h
    rw [AccessPanel.OnMessage_insertion, AccessPanel.OnMessage_editing_pos,
      if_pos h, hlen]
    omega
  · intro h
    rw [AccessPanel.OnMessage_insertion, if_neg (by omega)]

theorem C2_cursor_relative_position_witness :
    ((⟨⟨['a', 'b'], 2⟩, 1⟩ : AccessPanel).OnMessage ['x']).output.insertion
      = ((⟨⟨['a', 'b'], 2⟩, 1⟩ : AccessPanel).OnMessage ['x']).editing_pos
        + ((⟨⟨['a', 'b'], 2⟩, 1⟩ : AccessPanel).output.insertion
          - (⟨⟨['a', 'b'], 2⟩, 1⟩ : AccessPanel).editing_pos) ∧
    ((⟨⟨['a', 'b'], 0⟩, 1⟩ : AccessPanel).OnMessage ['x']).output.insertion
      = (⟨⟨['a', 'b'], 0⟩, 1⟩ : AccessPanel).output.insertion :=
  ⟨(C2_cursor_relative_position ⟨⟨['a', 'b'], 2⟩, 1⟩ ['x'] (by decide)).1
      (by decide),
    (C2_cursor_relative_position ⟨⟨['a', 'b'], 0⟩, 1⟩ ['x'] (by decide)).2
      (by decide)⟩

/-- Claim C9: `ClearInput` is idempotent; after each of two consecutive
calls the input is empty and the boundary equals the surface length. -/
theorem C9_clear_idempotent (p : AccessPanel) :
    p.ClearInput.input = [] ∧
    p.ClearInput.editing_pos = p.ClearInput.output.text.length ∧
    p.ClearInput.ClearInput.input = [] ∧
    p.ClearInput.ClearInput.editing_pos
      = p.ClearInput.ClearInput.output.text.length := by
  refine ⟨AccessPanel.ClearInput_input p, ?_,
    AccessPanel.ClearInput_input p.ClearInput, ?_⟩
  · rw [AccessPanel.ClearInput_editing_pos p, AccessPanel.ClearInput_text p]
  · rw [AccessPanel.ClearInput_editing_pos p.ClearInput,
      AccessPanel.ClearInput_text p.ClearInput]

/-- Claim C6 (amended): the text appended to the history region is
`normalizeMessage m` — the message's lines joined with `"\r\n"`, with one
`"\r\n"` appended when the join does not already end with it.  The result
always ends with the terminator (but may end with more than one when the
message had several trailing line breaks); on an empty surface
`appendOutput("hello")` yields surface `"hello\r\n"`, boundary 7 and empty
input. -/
theorem C6_amended_normalized_append :
    (∀ (p : AccessPanel) (m : List Char),
      (p.OnMessage m).output.text.take (p.OnMessage m).editing_pos
        = p.output.text.take p.editing_pos ++ normalizeMessage m ∧
      CRLF <:+ normalizeMessage m) ∧
    (initPanel.OnMessage "hello".toList).output.text = "hello\r\n".toList ∧
    (initPanel.OnMessage "hello".toList).editing_pos = 7 ∧
    (initPanel.OnMessage "hello".toList).input = [] := by
  refine ⟨fun p m => ⟨?_, CRLF_suffix_normalizeMessage m⟩,
    by decide, by decide, by decide⟩
  rw [AccessPanel.OnMessage_text, AccessPanel.OnMessage_editing_pos,
    ← List.length_append, List.take_left]

/-- Claim C6 counterexample: appending `"a\n\n\n"` to a fresh panel makes
the history text (= the appended text) end with `"\r\n\r\n"`, so the
appended text does not end with exactly one terminator as the claim
states. -/
theorem C6_counterexample_two_terminators :
    ¬ specEndsWithExactlyOneTerminator
        ((initPanel.OnMessage "a\n\n\n".toList).output.text.take
          (initPanel.OnMessage "a\n\n\n".toList).editing_pos) := by
  decide

/-- Claim C3 (code-bug evidence): `IsEditing` computes `pos < editing_pos`
and therefore returns the opposite of its own docstring ("Return True if
editing ... if the cursor is in the input area") and of the claim.  With
cursor 2 and boundary 0 (cursor inside the input area) the non-strict
query returns `false`; with cursor 0 and boundary 0 (cursor ≤ boundary,
where the claim requires `false`) the strict query returns `true`. -/
theorem C3_isEditing_inverted :
    (⟨⟨['a', 'b'], 2⟩, 0⟩ : AccessPanel).IsEditing false = false ∧
    (⟨⟨[], 0⟩, 0⟩ : AccessPanel).IsEditing true = true := by
  decide

/-- Claim C10: `OnMessage` with the empty message is not a no-op: the
normalized text is exactly `"\r\n"`, the surface and the boundary grow by
2, and the pending input and cursor behave exactly as for any message. -/
theorem C10_empty_message (p : AccessPanel) (hb : boundaryInv p) :
    normalizeMessage [] = CRLF ∧
    (p.OnMessage []).output.text.length = p.output.text.length + 2 ∧
    (p.OnMessage []).editing_pos = p.editing_pos + 2 ∧
    (p.OnMessage []).input = p.input ∧
    (p.editing_pos ≤ p.output.insertion →
      (p.OnMessage []).output.insertion = p.output.insertion + 2) ∧
    (p.output.insertion < p.editing_pos →
      (p.OnMessage []).output.insertion = p.output.insertion) := by
  have hnorm : normalizeMessage [] = CRLF := by decide
  have hlen : (p.output.text.take p.editing_pos).length = p.editing_pos := by
    rw [List.length_take]
    exact Nat.min_eq_left hb
  have h2 : (normalizeMessage []).length = 2 := by rw [hnorm]; rfl
  have hb' : p.editing_pos ≤ p.output.text.length := hb
  refine ⟨hnorm, ?_, ?_, (C1_append_preserves_input p []).1, ?_, ?_⟩
  · rw [AccessPanel.OnMessage_text]
    simp only [List.length_append, h2, hlen, List.length_drop]
    omega
  · rw [AccessPanel.OnMessage_editing_pos, hlen, h2]
  · intro h
    rw [AccessPanel.OnMessage_insertion, if_pos h, h2]
  · intro h
    rw [AccessPanel.OnMessage_insertion, if_neg (by omega)]

theorem C10_empty_message_witness :
    boundaryInv (⟨⟨['a', 'b'], 2⟩, 1⟩ : AccessPanel) ∧
    (((⟨⟨['a', 'b'], 2⟩, 1⟩ : AccessPanel).OnMessage []).output.text.length
        = (⟨⟨['a', 'b'], 2⟩, 1⟩ : AccessPanel).output.text.length + 2 ∧
      ((⟨⟨['a', 'b'], 2⟩, 1⟩ : AccessPanel).OnMessage []).editing_pos
        = (⟨⟨['a', 'b'], 2⟩, 1⟩ : AccessPanel).editing_pos + 2 ∧
      ((⟨⟨['a', 'b'], 2⟩, 1⟩ : AccessPanel).OnMessage []).input
        = (⟨⟨['a', 'b'], 2⟩, 1⟩ : AccessPanel).input) :=
  ⟨by decide,
    ((C10_empty_message ⟨⟨['a', 'b'], 2⟩, 1⟩ (by decide)).2.1),
    ((C10_empty_message ⟨⟨['a', 'b'], 2⟩, 1⟩ (by decide)).2.2.1),
    ((C10_empty_message ⟨⟨['a', 'b'], 2⟩, 1⟩ (by decide)).2.2.2.1)⟩

/-- Claim C5: on the submit key (Return, no modifiers) the controller
captures the pending input, clears it, calls `OnInput` exactly once with
the captured text — at a state whose pending input is already empty — and
suppresses propagation of the event. -/
theorem C5_submit_clears_then_notifies (p : AccessPanel) (e : KeyEvent)
    (hu : e.unicodeKey = WXK_RETURN) (hm : e.modifiers = 0) :
    (p.OnKeyDown e).2.1 = false ∧
    (p.OnKeyDown e).2.2 = [(p.ClearInput, p.input)] ∧
    p.ClearInput.input = [] := by
  refine ⟨?_, ?_, AccessPanel.ClearInput_input p⟩ <;>
    simp [AccessPanel.OnKeyDown, hu, hm, WXK_RETURN, WXK_BACK]

theorem C5_submit_clears_then_notifies_witness :
    (((⟨⟨['c', 'm', 'd'], 3⟩, 0⟩ : AccessPanel).OnKeyDown ⟨13, 13, 0⟩).2.1
        = false ∧
      ((⟨⟨['c', 'm', 'd'], 3⟩, 0⟩ : AccessPanel).OnKeyDown ⟨13, 13, 0⟩).2.2
        = [((⟨⟨['c', 'm', 'd'], 3⟩, 0⟩ : AccessPanel).ClearInput,
            (⟨⟨['c', 'm', 'd'], 3⟩, 0⟩ : AccessPanel).input)] ∧
      (⟨⟨['c', 'm', 'd'], 3⟩, 0⟩ : AccessPanel).ClearInput.input = []) :=
  C5_submit_clears_then_notifies ⟨⟨['c', 'm', 'd'], 3⟩, 0⟩ ⟨13, 13, 0⟩ rfl rfl

/-- Claim C7 (amended): a printable key with code below 256 (no
modifiers) pressed while the cursor is strictly before the boundary moves
the cursor to the end of the surface, leaves everything else untouched,
makes no `OnInput` call, and still propagates the keystroke to the widget.
The code's branch condition is `0 < key < 256`, not "printable": printable
characters with code 256 or above do not satisfy it and are not snapped
(see the counterexample below). -/
theorem C7_printable_snaps_cursor (p : AccessPanel) (e : KeyEvent)
    (hm : e.modifiers = 0) (h1 : 32 ≤ e.unicodeKey) (h2 : e.unicodeKey < 256)
    (hc : p.output.insertion < p.editing_pos) :
    p.OnKeyDown e =
      ({ p with output := p.output.SetInsertionPoint p.output.text.length },
        true, []) := by
  have hret : e.unicodeKey ≠ WXK_RETURN := by unfold WXK_RETURN; omega
  have hback : e.unicodeKey ≠ WXK_BACK := by unfold WXK_BACK; omega
  have h0 : 0 < e.unicodeKey := by omega
  simp [AccessPanel.OnKeyDown, TextCtrl.GetInsertionPoint,
    TextCtrl.GetLastPosition, hm, hret, hback, h0, h2, hc,
    Nat.pos_iff_ne_zero.mp h0]

theorem C7_printable_snaps_cursor_witness :
    (⟨⟨['h', 'i'], 0⟩, 2⟩ : AccessPanel).OnKeyDown ⟨97, 97, 0⟩ =
      ({ (⟨⟨['h', 'i'], 0⟩, 2⟩ : AccessPanel) with
          output := (⟨['h', 'i'], 0⟩ : TextCtrl).SetInsertionPoint 2 },
        true, []) :=
  C7_printable_snaps_cursor ⟨⟨['h', 'i'], 0⟩, 2⟩ ⟨97, 97, 0⟩ rfl
    (by decide) (by decide) (by decide)

/-- Claim C7 counterexample: the printable Cyrillic letter U+0434 (key
code 1076, no modifiers), pressed with the cursor at 0, strictly before
boundary 2, does not move the cursor to the end of the surface: the
code's snap test is `0 < key < 256`, not "printable", so the controller
returns the panel unchanged (cursor still 0, not the surface length 2)
and the event is propagated — the character would be inserted into the
history region. -/
theorem C7_counterexample_nonlatin_printable :
    (⟨⟨['h', 'i'], 0⟩, 2⟩ : AccessPanel).output.insertion
        < (⟨⟨['h', 'i'], 0⟩, 2⟩ : AccessPanel).editing_pos ∧
    (⟨⟨['h', 'i'], 0⟩, 2⟩ : AccessPanel).OnKeyDown ⟨1076, 1076, 0⟩
        = (⟨⟨['h', 'i'], 0⟩, 2⟩, true, []) ∧
    (⟨⟨['h', 'i'], 0⟩, 2⟩ : AccessPanel).output.insertion
        ≠ (⟨⟨['h', 'i'], 0⟩, 2⟩ : AccessPanel).output.text.length := by
  decide

/-- Claim C4 counterexample: Backspace (no modifiers) with the cursor at
offset 0, boundary 1 and pending input `"a"` — so cursor ≤ boundary — is
NOT suppressed: the final skip flag is `true`, the event reaches the
widget. -/
theorem C4_counterexample_backspace_propagated :
    (⟨⟨['x', 'a'], 0⟩, 1⟩ : AccessPanel).output.insertion
        ≤ (⟨⟨['x', 'a'], 0⟩, 1⟩ : AccessPanel).editing_pos ∧
    ((⟨⟨['x', 'a'], 0⟩, 1⟩ : AccessPanel).OnKeyDown ⟨8, 8, 0⟩).2.1 = true := by
  decide

/-- The strict query in arithmetic form: `IsEditing(True)` holds exactly
when the cursor is at or before the boundary. -/
lemma AccessPanel.IsEditing_true_eq (p : AccessPanel) :
    p.IsEditing true = decide (p.output.insertion ≤ p.editing_pos) := by
  simp only [AccessPanel.IsEditing, TextCtrl.GetInsertionPoint, if_true]
  rw [decide_eq_decide]
  omega

/-- Claim C4 (amended): Backspace with no modifiers and cursor ≤ boundary
never changes surface content, boundary or pending input and makes no
`OnInput` call; it is suppressed exactly when the cursor is at the
boundary, or is before it with empty pending input.  (When the cursor is
strictly before the boundary with nonempty pending input, the snap-to-end
branch fires first, so the event is propagated to the widget.) -/
theorem C4_amended_backspace_refusal (p : AccessPanel) (e : KeyEvent)
    (hu : e.unicodeKey = WXK_BACK) (hm : e.modifiers = 0)
    (hc : p.output.insertion ≤ p.editing_pos) :
    (p.OnKeyDown e).1.output.text = p.output.text ∧
    (p.OnKeyDown e).1.editing_pos = p.editing_pos ∧
    (p.OnKeyDown e).1.input = p.input ∧
    (p.OnKeyDown e).2.2 = [] ∧
    ((p.OnKeyDown e).2.1 = false ↔
      (p.output.insertion = p.editing_pos ∨ p.input = [])) := by
  have hinp : p.input = [] ↔ p.output.text.length ≤ p.editing_pos := by
    rw [AccessPanel.input_eq, List.drop_eq_nil_iff]
  rcases Nat.lt_or_ge p.output.insertion p.editing_pos with hlt | hge
  · -- cursor strictly before the boundary: the snap branch fires
    by_cases hin : p.output.text.length ≤ p.editing_pos
    · have hkd : p.OnKeyDown e =
          ({ p with output :=
              p.output.SetInsertionPoint p.output.text.length }, false, []) := by
        simp [AccessPanel.OnKeyDown, hu, hm, WXK_RETURN, WXK_BACK,
          TextCtrl.GetInsertionPoint, TextCtrl.GetLastPosition,
          TextCtrl.SetInsertionPoint, AccessPanel.IsEditing_true_eq, hlt, hin]
      rw [hkd]
      refine ⟨rfl, rfl, ?_, rfl, iff_of_true rfl (Or.inr (hinp.mpr hin))⟩
      rw [AccessPanel.input_eq, AccessPanel.input_eq]
      rfl
    · have hkd : p.OnKeyDown e =
          ({ p with output :=
              p.output.SetInsertionPoint p.output.text.length }, true, []) := by
        simp [AccessPanel.OnKeyDown, hu, hm, WXK_RETURN, WXK_BACK,
          TextCtrl.GetInsertionPoint, TextCtrl.GetLastPosition,
          TextCtrl.SetInsertionPoint, AccessPanel.IsEditing_true_eq, hlt, hin]
      rw [hkd]
      refine ⟨rfl, rfl, ?_, rfl,
        iff_of_false (by simp) ?_⟩
      · rw [AccessPanel.input_eq, AccessPanel.input_eq]
        rfl
      · rintro (h | h)
        · omega
        · exact hin (hinp.mp h)
  · -- cursor exactly at the boundary: nothing moves, event suppressed
    have heq : p.output.insertion = p.editing_pos := by omega
    have hnlt : ¬ p.output.insertion < p.editing_pos := by omega
    have hkd : p.OnKeyDown e = (p, false, []) := by
      simp [AccessPanel.OnKeyDown, hu, hm, WXK_RETURN, WXK_BACK,
        TextCtrl.GetInsertionPoint, AccessPanel.IsEditing_true_eq, hnlt, hc]
    rw [hkd]
    exact ⟨rfl, rfl, rfl, rfl, iff_of_true rfl (Or.inl heq)⟩

theorem C4_amended_backspace_refusal_witness :
    (((⟨⟨['x', 'a'], 0⟩, 1⟩ : AccessPanel).OnKeyDown ⟨8, 8, 0⟩).1.output.text
        = (⟨⟨['x', 'a'], 0⟩, 1⟩ : AccessPanel).output.text ∧
      ((⟨⟨['x', 'a'], 0⟩, 1⟩ : AccessPanel).OnKeyDown ⟨8, 8, 0⟩).1.editing_pos
        = (⟨⟨['x', 'a'], 0⟩, 1⟩ : AccessPanel).editing_pos ∧
      ((⟨⟨['x', 'a'], 0⟩, 1⟩ : AccessPanel).OnKeyDown ⟨8, 8, 0⟩).1.input
        = (⟨⟨['x', 'a'], 0⟩, 1⟩ : AccessPanel).input ∧
      ((⟨⟨['x', 'a'], 0⟩, 1⟩ : AccessPanel).OnKeyDown ⟨8, 8, 0⟩).2.2 = [] ∧
      (((⟨⟨['x', 'a'], 0⟩, 1⟩ : AccessPanel).OnKeyDown ⟨8, 8, 0⟩).2.1 = false ↔
        ((⟨⟨['x', 'a'], 0⟩, 1⟩ : AccessPanel).output.insertion
            = (⟨⟨['x', 'a'], 0⟩, 1⟩ : AccessPanel).editing_pos ∨
          (⟨⟨['x', 'a'], 0⟩, 1⟩ : AccessPanel).input = []))) :=
  C4_amended_backspace_refusal ⟨⟨['x', 'a'], 0⟩, 1⟩ ⟨8, 8, 0⟩ rfl rfl
    (by decide)

/-- Claim C8: the boundary invariant `editing_pos ≤ length` holds for the
fresh panel and is preserved (for `OnMessage` and `ClearInput` even
established unconditionally) by every controller operation. -/
theorem C8_boundary_invariant :
    boundaryInv initPanel ∧
    (∀ (p : AccessPanel) (m : List Char), boundaryInv (p.OnMessage m)) ∧
    (∀ p : AccessPanel, boundaryInv p.ClearInput) ∧
    (∀ (p : AccessPanel) (e : KeyEvent),
      boundaryInv p → boundaryInv (p.OnKeyDown e).1) := by
  have hclear : ∀ p : AccessPanel, boundaryInv p.ClearInput := by
    intro p
    unfold boundaryInv
    rw [AccessPanel.ClearInput_editing_pos p, AccessPanel.ClearInput_text p]
  refine ⟨by decide, ?_, hclear, ?_⟩
  · intro p m
    unfold boundaryInv
    rw [AccessPanel.OnMessage_editing_pos, AccessPanel.OnMessage_text]
    simp only [List.length_append]
    omega
  · intro p e hp
    unfold boundaryInv AccessPanel.OnKeyDown
    dsimp only
    repeat' split
    all_goals first | exact hclear p | exact hp

theorem C8_boundary_invariant_witness :
    boundaryInv ((initPanel.OnKeyDown ⟨97, 97, 0⟩).1) :=
  C8_boundary_invariant.2.2.2 initPanel ⟨97, 97, 0⟩ (by decide)
